import Mathlib

/-!
Shallow embedding of the ReadNote Plus persistence server (src/server.js).

The server is a Node HTTP server: requests whose URL starts with "/api/" are
dispatched to the API handler (book/progress/notes CRUD against a Redis
key-value store); all other requests are served from the file system with a
single-page-application fallback to the entry document "ReadNote Plus.html".

Modelling conventions:
- JSON values are the inductive type Json; JavaScript truthiness is the
  function truthy.
- The Redis store is an association list from keys to already-parsed JSON
  values: the code always writes JSON.stringify of a value and reads it back
  through JSON.parse, and the serializer is injective, so the string
  representation is elided. The raw-data blob is stored as the posted JSON
  value for the same reason.
- The clock (new Date()) is an explicit DateTime argument; toISOString is
  the function isoTimestamp and Date parsing of the fixed-width ISO-8601
  format is parseIso (month-length validation, e.g. rejecting Feb 30, is
  not modelled).
- Request bodies are given to the handler already parsed (the JSON.parse
  failure path of parseBody, which the catch-all turns into a 500, is not
  exercised by any claim). A parsed body of JSON null makes the POST
  handlers' property access or destructuring throw; that path is modelled
  explicitly as the catch-all's 500 with no store write.
- String-level JavaScript operations (startsWith, split, decodeURIComponent,
  path.join, path.extname, the book-route regexp) are modelled on the
  character lists underlying Lean strings.
-/

/-- JSON values, as produced by JSON.parse. Numbers are modelled as integers
(no claim depends on non-integral or non-finite numbers). -/
inductive Json where
  | null : Json
  | bool : Bool → Json
  | num : Int → Json
  | str : String → Json
  | arr : List Json → Json
  | obj : List (String × Json) → Json

/-- JavaScript truthiness of a JSON value: null, false, 0 and "" are falsy,
everything else (arrays and objects included) is truthy. -/
def truthy : Json → Bool
  | .null => false
  | .bool b => b
  | .num n => decide (n ≠ 0)
  | .str s => decide (s ≠ "")
  | .arr _ => true
  | .obj _ => true

/-- Truthiness of a possibly-absent value: an absent field (undefined) is
falsy. -/
def truthyO : Option Json → Bool
  | none => false
  | some v => truthy v

/-- Test for the JSON null value: reading a property of a null parsed body
(or destructuring it) throws a TypeError in JavaScript, while every other
parsed value — objects, arrays, and even primitives — yields the property
or undefined without throwing. -/
def Json.isNull : Json → Bool
  | .null => true
  | _ => false

/-- The Redis store: an association list from keys to (parsed) values.
The first binding for a key is its current value. JSON objects use the same
representation for their field lists. -/
abbrev Store := List (String × Json)

/-- Redis GET (and object field lookup): the first binding of the key;
absent keys give null (modelled as none). -/
def Store.get : Store → String → Option Json
  | [], _ => none
  | (k, v) :: s, key => if k = key then some v else Store.get s key

/-- Redis SET: bind the key to the value, dropping any previous binding. -/
def Store.set (s : Store) (k : String) (v : Json) : Store :=
  (k, v) :: s.filter (fun p => p.1 ≠ k)

/-- Redis DEL: drop every binding of the key; deleting an absent key is a
no-op, not an error. -/
def Store.del (s : Store) (k : String) : Store :=
  s.filter (fun p => p.1 ≠ k)

/-- Field projection on a JSON object (object keys are unique, so lookup of
the first binding); any non-object has no fields (undefined). -/
def Json.getField : Json → String → Option Json
  | .obj fs, key => Store.get fs key
  | _, _ => none

/-- Entry for an optional field of an object literal passed through
JSON.stringify: a key whose value is undefined is dropped. -/
def optField (k : String) : Option Json → List (String × Json)
  | none => []
  | some v => [(k, v)]

/-- Object-literal spread followed by one explicit field, as in the
expression written with three dots over the parsed metadata plus rawData:
the fields of the spread object with the named field (re)bound to the given
value. Spreading a non-object contributes no fields (accurate for the
primitive values; the character-indexing spread of strings is not modelled —
no stored metadata value is a string). -/
def setField (m : Json) (k : String) (v : Json) : Json :=
  match m with
  | .obj fs => .obj (fs.filter (fun p => p.1 ≠ k) ++ [(k, v)])
  | _ => .obj [(k, v)]

/-- Missing value coerced to JSON null, as a Redis get miss surfaces as null
in a response object. -/
def jsNullable (o : Option Json) : Json := o.getD .null

/-- The JavaScript expression value-or-default (the logical-or idiom used
for body fields): the value when present and truthy, the default otherwise. -/
def jsOrElse (o : Option Json) (d : Json) : Json :=
  match o with
  | some v => if truthy v then v else d
  | none => d

mutual

/-- Template-literal stringification of a JSON value (JavaScript String()):
used to build the Redis key from the posted book id. -/
def jsToString : Json → String
  | .null => "null"
  | .bool true => "true"
  | .bool false => "false"
  | .num n => toString n
  | .str s => s
  | .arr l => jsArrToString l
  | .obj _ => "[object Object]"

/-- Array stringification: comma-joined element stringifications. -/
def jsArrToString : List Json → String
  | [] => ""
  | [x] => jsToString x
  | x :: y :: xs => jsToString x ++ "," ++ jsArrToString (y :: xs)

end

/-- Components of a calendar timestamp, as carried by a JavaScript Date
(UTC fields, month already one-based as printed). -/
structure DateTime where
  year : Nat
  month : Nat
  day : Nat
  hour : Nat
  minute : Nat
  second : Nat
  ms : Nat
deriving DecidableEq

/-- Ranges a Date produced by the system clock satisfies; these make the
ISO printout fixed-width and acceptable to the parser. Month-length
interaction with the day is not modelled. -/
def DateTime.valid (d : DateTime) : Prop :=
  d.year < 10000 ∧ 1 ≤ d.month ∧ d.month ≤ 12 ∧ 1 ≤ d.day ∧ d.day ≤ 31 ∧
    d.hour ≤ 23 ∧ d.minute ≤ 59 ∧ d.second ≤ 59 ∧ d.ms < 1000

/-- Decimal digits of a number, most significant first. -/
def msdDigits (n : Nat) : List Nat :=
  if _h : n < 10 then [n] else msdDigits (n / 10) ++ [n % 10]
decreasing_by exact Nat.div_lt_self (by omega) (by omega)

/-- Digit rendered as a character. -/
def digitChar (d : Nat) : Char := Char.ofNat (48 + d)

/-- Decimal printout of a number left-padded with zeros to a width, as
toISOString pads every timestamp component. -/
def padChars (w n : Nat) : List Char :=
  List.replicate (w - (msdDigits n).length) '0' ++ (msdDigits n).map digitChar

/-- Characters of the ISO-8601 printout of a timestamp, exactly the format
of Date.prototype.toISOString for clock-range dates:
four-digit year, dash, two-digit month, dash, two-digit day, letter T,
two-digit hour, colon, two-digit minute, colon, two-digit second, dot,
three-digit milliseconds, letter Z. -/
def isoChars (d : DateTime) : List Char :=
  padChars 4 d.year ++ '-' :: (padChars 2 d.month ++ '-' :: (padChars 2 d.day ++
    'T' :: (padChars 2 d.hour ++ ':' :: (padChars 2 d.minute ++
      ':' :: (padChars 2 d.second ++ '.' :: (padChars 3 d.ms ++ ['Z']))))))

/-- The string new Date().toISOString() stamps into saved book metadata. -/
def isoTimestamp (d : DateTime) : String := String.mk (isoChars d)

/-- Read exactly a given count of decimal digits, folding them onto an
accumulator; fails on a non-digit or on running out of input. -/
def readFixed : Nat → Nat → List Char → Option (Nat × List Char)
  | 0, acc, l => some (acc, l)
  | k + 1, acc, c :: l =>
    if c.isDigit then readFixed k (acc * 10 + (c.toNat - 48)) l else none
  | _ + 1, _, [] => none

/-- Consume one expected character. -/
def expectCh (c : Char) : List Char → Option (List Char)
  | d :: l => if d = c then some l else none
  | [] => none

/-- Date parsing of the fixed-width ISO-8601 format (the shape produced by
toISOString), with the field-range checks the Date parser applies; gives
the parsed timestamp on success. -/
def parseIsoChars (l : List Char) : Option DateTime :=
  match readFixed 4 0 l with
  | none => none
  | some (y, l) =>
  match expectCh '-' l with
  | none => none
  | some l =>
  match readFixed 2 0 l with
  | none => none
  | some (mo, l) =>
  match expectCh '-' l with
  | none => none
  | some l =>
  match readFixed 2 0 l with
  | none => none
  | some (d, l) =>
  match expectCh 'T' l with
  | none => none
  | some l =>
  match readFixed 2 0 l with
  | none => none
  | some (h, l) =>
  match expectCh ':' l with
  | none => none
  | some l =>
  match readFixed 2 0 l with
  | none => none
  | some (mi, l) =>
  match expectCh ':' l with
  | none => none
  | some l =>
  match readFixed 2 0 l with
  | none => none
  | some (s, l) =>
  match expectCh '.' l with
  | none => none
  | some l =>
  match readFixed 3 0 l with
  | none => none
  | some (ms, l) =>
  match expectCh 'Z' l with
  | none => none
  | some l =>
  if l = [] ∧ 1 ≤ mo ∧ mo ≤ 12 ∧ 1 ≤ d ∧ d ≤ 31 ∧ h ≤ 23 ∧ mi ≤ 59 ∧ s ≤ 59 then
    some ⟨y, mo, d, h, mi, s, ms⟩
  else none

/-- Date parsing of a timestamp string. -/
def parseIso (s : String) : Option DateTime := parseIsoChars s.data

/-- An HTTP request as the handlers see it: method, raw URL, and the parsed
JSON body (empty object for an empty body). -/
structure Request where
  method : String
  url : String
  body : Json

/-- The payload of an HTTP response: empty (preflight), a JSON document
(sendJson), or raw text/file content (static serving and hard errors). -/
inductive RBody where
  | empty : RBody
  | json : Json → RBody
  | text : String → RBody

/-- An HTTP response: status code, headers as written by writeHead, body. -/
structure Response where
  status : Nat
  headers : List (String × String)
  body : RBody

/-- Header lookup (first binding). -/
def Response.header (r : Response) (k : String) : Option String :=
  r.headers.lookup k

/-- Projection of a field of a JSON response body. -/
def Response.jsonField (r : Response) (k : String) : Option Json :=
  match r.body with
  | .json j => j.getField k
  | _ => none

/-- The sendJson helper: the given status with a JSON content type, the
permissive cross-origin header, and the serialized data as body. -/
def sendJson (data : Json) (status : Nat) : Response :=
  { status := status
    headers := [("Content-Type", "application/json"),
                ("Access-Control-Allow-Origin", "*")]
    body := .json data }

/-- The CORS preflight response: 204, no body, the three cross-origin
headers. -/
def preflightResponse : Response :=
  { status := 204
    headers := [("Access-Control-Allow-Origin", "*"),
                ("Access-Control-Allow-Methods", "GET, POST, PUT, DELETE, OPTIONS"),
                ("Access-Control-Allow-Headers", "Content-Type")]
    body := .empty }

/-- JavaScript String.prototype.startsWith. -/
def jsStartsWith (s pre : String) : Bool :=
  decide (s.data.take pre.data.length = pre.data)

/-- Join path segments with slashes. -/
def joinSegs : List (List Char) → List Char
  | [] => []
  | [s] => s
  | s :: t :: ss => s ++ '/' :: joinSegs (t :: ss)

/-- Membership in the WHATWG path percent-encode set: C0 controls and
every code point above tilde (0x7E), plus space (0x20), double quote
(0x22), the angle brackets (0x3C, 0x3E), the grave accent (0x60) and the
curly brackets (0x7B, 0x7D). Question mark and hash never reach the path
encoder because they terminate the path. The percent sign is copied
verbatim, never re-encoded. -/
def inPathEncodeSet (c : Char) : Bool :=
  decide (c.toNat ≤ 0x1F) || decide (c.toNat ≥ 0x7F) ||
  decide (c.toNat = 0x20) || decide (c.toNat = 0x22) ||
  decide (c.toNat = 0x3C) || decide (c.toNat = 0x3E) ||
  decide (c.toNat = 0x60) || decide (c.toNat = 0x7B) || decide (c.toNat = 0x7D)

/-- Uppercase hexadecimal digit, as the URL percent-encoder emits. -/
def hexDigitUpper (n : Nat) : Char :=
  if n < 10 then Char.ofNat (48 + n) else Char.ofNat (55 + n)

/-- UTF-8 bytes of a code point, for percent-encoding non-ASCII path
characters. -/
def utf8Bytes (n : Nat) : List Nat :=
  if n < 0x80 then [n]
  else if n < 0x800 then [0xC0 + n / 0x40, 0x80 + n % 0x40]
  else if n < 0x10000 then
    [0xE0 + n / 0x1000, 0x80 + n / 0x40 % 0x40, 0x80 + n % 0x40]
  else [0xF0 + n / 0x40000, 0x80 + n / 0x1000 % 0x40, 0x80 + n / 0x40 % 0x40,
    0x80 + n % 0x40]

/-- Percent-encode one character as its UTF-8 bytes. -/
def pctEncodeChar (c : Char) : List Char :=
  ((utf8Bytes c.toNat).map
    (fun b => ['%', hexDigitUpper (b / 16), hexDigitUpper (b % 16)])).flatten

/-- Percent-encode a path segment with the path percent-encode set. -/
def encodeSeg (s : List Char) : List Char :=
  (s.map (fun c => if inPathEncodeSet c then pctEncodeChar c else [c])).flatten

/-- A single-dot path segment: dot, or its percent-encoded form, case
insensitively (the spec checks the buffer after encoding; since dot and
percent survive the path encoder unchanged, checking the raw segment is
equivalent). -/
def isSingleDotSeg (s : List Char) : Bool :=
  decide (s.map Char.toLower = ['.']) ||
  decide (s.map Char.toLower = ['%', '2', 'e'])

/-- A double-dot path segment: two dots, each possibly percent-encoded,
case insensitively. -/
def isDoubleDotSeg (s : List Char) : Bool :=
  decide (s.map Char.toLower = ['.', '.']) ||
  decide (s.map Char.toLower = ['.', '%', '2', 'e']) ||
  decide (s.map Char.toLower = ['%', '2', 'e', '.']) ||
  decide (s.map Char.toLower = ['%', '2', 'e', '%', '2', 'e'])

/-- Split a character list on the path separators of a special-scheme URL:
slash and backslash (the parser folds backslashes into slashes). -/
def splitSep : List Char → List (List Char)
  | [] => [[]]
  | a :: rest =>
    match splitSep rest with
    | [] => [[a]]
    | s :: ss => if a = '/' ∨ a = '\\' then [] :: s :: ss else (a :: s) :: ss

/-- The URL parser's path state over the split segments: each double-dot
segment pops the previous segment, each single-dot segment is dropped, and
a trailing dot segment leaves a trailing empty segment (hence a trailing
slash); other segments are percent-encoded and kept, empty ones included. -/
def processSegs : List (List Char) → List (List Char) → List (List Char)
  | acc, [] => acc
  | acc, [last] =>
    if isDoubleDotSeg last then acc.dropLast ++ [[]]
    else if isSingleDotSeg last then acc ++ [[]]
    else acc ++ [encodeSeg last]
  | acc, seg :: rest =>
    if isDoubleDotSeg seg then processSegs acc.dropLast rest
    else if isSingleDotSeg seg then processSegs acc rest
    else processSegs (acc ++ [encodeSeg seg]) rest

/-- The pathname of a path-absolute request URL as computed by the URL
constructor with a base: the part before the query string or fragment,
split on slash and backslash, with single- and double-dot segments (and
their percent-encoded forms) removed or popped and the remaining segments
percent-encoded with the path percent-encode set. -/
def urlPathname (url : String) : String :=
  let cs := url.data.takeWhile (fun c => c ≠ '?' ∧ c ≠ '#')
  let rest := match cs with
    | '/' :: r => r
    | r => r
  String.mk ('/' :: joinSegs (processSegs [] (splitSep rest)))

/-- A string usable verbatim as one URL path segment: free of the segment
separators slash and backslash, of the path terminators question mark and
hash, of every character the path encoder rewrites, and not a single- or
double-dot segment. On such segments the URL parser is the identity. -/
abbrev urlSafeSeg (l : List Char) : Prop :=
  (∀ c ∈ l, c ≠ '/' ∧ c ≠ '\\' ∧ c ≠ '?' ∧ c ≠ '#' ∧ inPathEncodeSet c = false) ∧
  isSingleDotSeg l = false ∧ isDoubleDotSeg l = false

/-- Match of the book-route regular expression anchored on slash api slash
books slash followed by one nonempty slash-free segment; gives that final
segment (which the handler recovers by splitting on slashes and taking the
last piece). -/
def matchBookPath (p : String) : Option String :=
  if p.data.take 11 = "/api/books/".data ∧ p.data.drop 11 ≠ [] ∧ '/' ∉ p.data.drop 11 then
    some (String.mk (p.data.drop 11))
  else none

/-- Does a key match the Redis glob pattern book colon star colon meta used
to list books: the book prefix, the meta suffix, and room for both. -/
def metaKeyMatch (k : String) : Bool :=
  decide (k.data.take 5 = "book:".data) &&
    decide (k.data.reverse.take 5 = ":meta".data.reverse) &&
    decide (10 ≤ k.data.length)

/-- GET list route: scan keys matching the meta pattern, read each, collect
the present values (stored meta strings are nonempty, hence truthy). -/
def listBooks (s : Store) : Response :=
  let ks := (s.map Prod.fst).filter metaKeyMatch
  let books := ks.filterMap (fun k => s.get k)
  sendJson (.obj [("books", .arr books)]) 200

/-- GET one-book route: read the meta and data keys; a missing meta record
is a 404, otherwise the parsed metadata spread together with the raw data
blob under the rawData field. -/
def getBook (s : Store) (bookId : String) : Response :=
  let meta := s.get ("book:" ++ bookId ++ ":meta")
  let data := s.get ("book:" ++ bookId ++ ":data")
  match meta with
  | none => sendJson (.obj [("error", .str "Book not found")]) 404
  | some m => sendJson (setField m "rawData" (jsNullable data)) 200

/-- POST books route: destructuring a null parsed body throws, which the
catch-all answers as a 500 without writing (the engine-specific TypeError
message is modelled by a fixed string); otherwise require truthy id and
name (else 400); store the metadata record with the server-stamped
timestamp under the meta key; store the raw data blob when truthy; store
the content/chapters record when either is truthy; answer success with
the id. -/
def postBooks (s : Store) (body : Json) (now : DateTime) : Response × Store :=
  if body.isNull then
    (sendJson (.obj [("error", .str "Cannot destructure a null body")]) 500, s)
  else
  let idv := body.getField "id"
  let namev := body.getField "name"
  if truthyO idv = false ∨ truthyO namev = false then
    (sendJson (.obj [("error", .str "Missing required fields")]) 400, s)
  else
    let idStr := jsToString (jsNullable idv)
    let metaData : Json := .obj
      (optField "id" idv ++ (optField "name" namev ++
        (optField "type" (body.getField "type") ++
        (optField "size" (body.getField "size") ++
        (optField "metadata" (body.getField "metadata") ++
        [("savedAt", .str (isoTimestamp now))])))))
    let s1 := s.set ("book:" ++ idStr ++ ":meta") metaData
    let s2 := if truthyO (body.getField "rawData") then
        s1.set ("book:" ++ idStr ++ ":data") (jsNullable (body.getField "rawData"))
      else s1
    let s3 := if truthyO (body.getField "content") || truthyO (body.getField "chapters") then
        s2.set ("book:" ++ idStr ++ ":content")
          (.obj (optField "content" (body.getField "content") ++
            optField "chapters" (body.getField "chapters")))
      else s2
    (sendJson (.obj [("success", .bool true), ("id", jsNullable idv)]) 200, s3)

/-- DELETE route: drop the meta, data and content keys unconditionally and
answer success. -/
def deleteBook (s : Store) (bookId : String) : Response × Store :=
  let s1 := ((s.del ("book:" ++ bookId ++ ":meta")).del
      ("book:" ++ bookId ++ ":data")).del ("book:" ++ bookId ++ ":content")
  (sendJson (.obj [("success", .bool true)]) 200, s1)

/-- GET progress route: the stored global progress record, empty when never
set. -/
def getProgress (s : Store) : Response :=
  sendJson (.obj [("progress", jsNullable ((s.get "user:progress").orElse (fun _ => some (.obj []))))]) 200

/-- POST progress route: reading the progress field of a null parsed body
throws, which the catch-all answers as a 500 without writing (the
engine-specific TypeError message is modelled by a fixed string);
otherwise replace the global progress record with the body's progress
field, empty when absent or falsy. -/
def postProgress (s : Store) (body : Json) : Response × Store :=
  if body.isNull then
    (sendJson (.obj [("error", .str "Cannot read properties of null")]) 500, s)
  else
    (sendJson (.obj [("success", .bool true)]) 200,
      s.set "user:progress" (jsOrElse (body.getField "progress") (.obj [])))

/-- GET notes route: the stored global notes record, empty when never set. -/
def getNotes (s : Store) : Response :=
  sendJson (.obj [("notes", jsNullable ((s.get "user:notes").orElse (fun _ => some (.obj []))))]) 200

/-- POST notes route: reading the notes field of a null parsed body
throws, which the catch-all answers as a 500 without writing; otherwise
replace the global notes record with the body's notes field, empty when
absent or falsy. -/
def postNotes (s : Store) (body : Json) : Response × Store :=
  if body.isNull then
    (sendJson (.obj [("error", .str "Cannot read properties of null")]) 500, s)
  else
    (sendJson (.obj [("success", .bool true)]) 200,
      s.set "user:notes" (jsOrElse (body.getField "notes") (.obj [])))

/-- GET status route: liveness probe; a connected store answers PONG to
ping, reported as connected. -/
def getStatus (_s : Store) : Response :=
  sendJson (.obj [("redis", .str "connected")]) 200

/-- The route table of the API handler with the store available, in source
order, ending in the JSON 404. -/
def apiRoutes (s : Store) (method pathname : String) (body : Json) (now : DateTime) :
    Response × Store :=
  if pathname = "/api/books" ∧ method = "GET" then (listBooks s, s)
  else if (matchBookPath pathname).isSome ∧ method = "GET" then
    (getBook s ((matchBookPath pathname).getD ""), s)
  else if pathname = "/api/books" ∧ method = "POST" then postBooks s body now
  else if (matchBookPath pathname).isSome ∧ method = "DELETE" then
    deleteBook s ((matchBookPath pathname).getD "")
  else if pathname = "/api/progress" ∧ method = "GET" then (getProgress s, s)
  else if pathname = "/api/progress" ∧ method = "POST" then postProgress s body
  else if pathname = "/api/notes" ∧ method = "GET" then (getNotes s, s)
  else if pathname = "/api/notes" ∧ method = "POST" then postNotes s body
  else if pathname = "/api/status" ∧ method = "GET" then (getStatus s, s)
  else (sendJson (.obj [("error", .str "Not found")]) 404, s)

/-- The API handler: answer the CORS preflight first; with no store client,
every remaining call is the 503 storage-unavailable error; otherwise
dispatch to the route table. -/
def handleApi (redis : Option Store) (method url : String) (body : Json)
    (now : DateTime) : Response × Option Store :=
  let pathname := urlPathname url
  if method = "OPTIONS" then (preflightResponse, redis)
  else
    match redis with
    | none => (sendJson (.obj [("error", .str "Cloud storage not available")]) 503, none)
    | some s =>
      ((apiRoutes s method pathname body now).1,
        some (apiRoutes s method pathname body now).2)

/-- Outcome of one file-system read: content, file-not-found (the ENOENT
error code, which triggers the SPA fallback), or any other read error. -/
inductive ReadResult where
  | ok : String → ReadResult
  | enoent : ReadResult
  | fail : ReadResult

/-- The file system visible to the static server: paths bound to read
outcomes; unbound paths do not exist. -/
abbrev FS := List (String × ReadResult)

/-- Model of fs.readFile on a path. -/
def readFile (fs : FS) (p : String) : ReadResult :=
  match fs.lookup p with
  | some r => r
  | none => .enoent

/-- Value of a hexadecimal digit character, if any. -/
def hexVal (c : Char) : Option Nat :=
  if '0' ≤ c ∧ c ≤ '9' then some (c.toNat - 48)
  else if 'A' ≤ c ∧ c ≤ 'F' then some (c.toNat - 55)
  else if 'a' ≤ c ∧ c ≤ 'f' then some (c.toNat - 87)
  else none

/-- Model of decodeURIComponent: percent escapes become the encoded
character; malformed escapes are kept verbatim (the real function throws;
no claim exercises that) and multi-byte UTF-8 sequences decode to the
individual code units. -/
def percentDecode : List Char → List Char
  | [] => []
  | '%' :: a :: b :: rest =>
    match hexVal a, hexVal b with
    | some x, some y => Char.ofNat (16 * x + y) :: percentDecode rest
    | _, _ => '%' :: percentDecode (a :: b :: rest)
  | c :: rest => c :: percentDecode rest

/-- Split a character list on a separator character. -/
def splitChar (c : Char) : List Char → List (List Char)
  | [] => [[]]
  | a :: rest =>
    match splitChar c rest with
    | [] => [[a]]
    | s :: ss => if a = c then [] :: s :: ss else (a :: s) :: ss

/-- Model of POSIX path.join for an absolute first argument: concatenate,
then normalize by dropping empty and dot segments and resolving each
dot-dot segment against the segment stack (dot-dot at the root is
dropped). -/
def pathJoin (a b : String) : String :=
  let segs := splitChar '/' a.data ++ splitChar '/' b.data
  let norm := segs.foldl
    (fun acc seg =>
      if seg = [] ∨ seg = ['.'] then acc
      else if seg = ['.', '.'] then acc.dropLast
      else acc ++ [seg])
    ([] : List (List Char))
  String.mk ('/' :: joinSegs norm)

/-- Model of path.extname composed over the resolved path: the part of the
last path segment from its last dot on, empty when the segment has no dot
or only a leading dot. -/
def extname (p : String) : String :=
  let base := match (splitChar '/' p.data).getLast? with
    | some b => b
    | none => []
  let revAfter := base.reverse.takeWhile (fun c => c ≠ '.')
  if base.length ≤ revAfter.length then ""
  else if base.length = revAfter.length + 1 then ""
  else String.mk ('.' :: revAfter.reverse)

/-- The content-type table keyed by lowercased extension. -/
def mimeTypes : List (String × String) :=
  [(".html", "text/html"), (".css", "text/css"), (".js", "application/javascript"),
   (".json", "application/json"), (".png", "image/png"), (".jpg", "image/jpeg"),
   (".gif", "image/gif"), (".svg", "image/svg+xml"), (".ico", "image/x-icon")]

/-- Content type for an extension, generic binary otherwise. -/
def contentTypeFor (ext : String) : String :=
  match mimeTypes.lookup ext with
  | some t => t
  | none => "application/octet-stream"

/-- Static path resolution: strip the query string, URL-decode, substitute
the entry document for the bare root, and join onto the server directory.
There is no containment check against that directory. -/
def resolveStatic (dirname url : String) : String :=
  let urlPath := String.mk (percentDecode (url.data.takeWhile (fun c => c ≠ '?')))
  let filePath := if urlPath = "/" ∨ urlPath = "" then "/ReadNote Plus.html" else urlPath
  pathJoin dirname filePath

/-- Path of the SPA entry document. -/
def entryPath (dirname : String) : String := pathJoin dirname "ReadNote Plus.html"

/-- The static file server: read the resolved path; on success serve it
with the extension-derived content type; on file-not-found fall back to the
entry document as text/html (SPA behavior), a failing entry read being a
bare 500; any other read error is a bare 500. -/
def serveStatic (fs : FS) (dirname url : String) : Response :=
  match readFile fs (resolveStatic dirname url) with
  | .ok c =>
    { status := 200,
      headers := [("Content-Type",
        contentTypeFor (String.toLower (extname (resolveStatic dirname url))))],
      body := .text c }
  | .enoent =>
    match readFile fs (entryPath dirname) with
    | .ok c => { status := 200, headers := [("Content-Type", "text/html")], body := .text c }
    | _ => { status := 500, headers := [], body := .text "Server Error" }
  | .fail => { status := 500, headers := [], body := .text "Server Error" }

/-- The request listener: URLs under the API root go to the API handler,
everything else (any method) to the static file server. The store handle
passes through unchanged on the static path. -/
def server (redis : Option Store) (fs : FS) (dirname : String) (now : DateTime)
    (req : Request) : Response × Option Store :=
  if jsStartsWith req.url "/api/" then
    handleApi redis req.method req.url req.body now
  else
    (serveStatic fs dirname req.url, redis)

/-- A concrete clock value used by concrete scenarios. -/
def dt0 : DateTime := ⟨2024, 1, 2, 3, 4, 5, 6⟩

/-- A file system holding only the entry document. -/
def fs0 : FS := [("/app/ReadNote Plus.html", ReadResult.ok "<html>")]

/-- A file system where one path fails with a non-ENOENT read error while
the entry document is readable. -/
def fs1 : FS := [("/app/x", ReadResult.fail), ("/app/ReadNote Plus.html", ReadResult.ok "<html>")]

/-- A store holding metadata for the book with id a. -/
def sA : Store := [("book:a:meta", Json.obj [("id", Json.str "a")])]

/-- A store holding a metadata record under the key of a book id that
contains a slash. -/
def sSlash : Store := [("book:a/b:meta", Json.str "m")]

theorem Store.get_set_same (s : Store) (k : String) (v : Json) :
    (s.set k v).get k = some v := by
  simp [Store.set, Store.get]

theorem Store.get_filter_ne (s : Store) (k k0 : String) (h : k ≠ k0) :
    Store.get (s.filter (fun p => p.1 ≠ k0)) k = s.get k := by
  induction s with
  | nil => rfl
  | cons a s ih =>
    obtain ⟨ka, va⟩ := a
    by_cases hk : ka = k0
    · rw [List.filter_cons_of_neg (by simp [hk])]
      have hka : ka ≠ k := by rw [hk]; exact fun he => h he.symm
      rw [ih]
      simp only [Store.get]
      rw [if_neg hka]
    · rw [List.filter_cons_of_pos (by simp [hk])]
      by_cases hka : ka = k
      · simp only [Store.get]
        rw [if_pos hka, if_pos hka]
      · simp only [Store.get]
        rw [if_neg hka, if_neg hka]
        exact ih

theorem Store.get_filter_self (s : Store) (k : String) :
    Store.get (s.filter (fun p => p.1 ≠ k)) k = none := by
  induction s with
  | nil => rfl
  | cons a s ih =>
    obtain ⟨ka, va⟩ := a
    by_cases hk : ka = k
    · rw [List.filter_cons_of_neg (by simp [hk])]
      exact ih
    · rw [List.filter_cons_of_pos (by simp [hk])]
      simp only [Store.get]
      rw [if_neg hk]
      exact ih

theorem Store.get_set_ne (s : Store) (k k' : String) (v : Json) (h : k' ≠ k) :
    (s.set k v).get k' = s.get k' := by
  simp only [Store.set, Store.get]
  rw [if_neg (fun he => h he.symm)]
  exact Store.get_filter_ne s k' k h

theorem Store.get_del_same (s : Store) (k : String) : (s.del k).get k = none :=
  Store.get_filter_self s k

theorem Store.get_del_ne (s : Store) (k k' : String) (h : k' ≠ k) :
    (s.del k).get k' = s.get k' :=
  Store.get_filter_ne s k' k h

theorem Store.get_append_some (l1 l2 : Store) (k : String) (v : Json)
    (h : Store.get l1 k = some v) : Store.get (l1 ++ l2) k = some v := by
  induction l1 with
  | nil => exact absurd h (by simp [Store.get])
  | cons a l ih =>
    obtain ⟨ka, va⟩ := a
    rw [List.cons_append]
    by_cases hk : ka = k
    · simp only [Store.get] at h ⊢
      rw [if_pos hk] at h ⊢
      exact h
    · simp only [Store.get] at h ⊢
      rw [if_neg hk] at h ⊢
      exact ih h

theorem Store.get_append_none (l1 l2 : Store) (k : String)
    (h : Store.get l1 k = none) : Store.get (l1 ++ l2) k = Store.get l2 k := by
  induction l1 with
  | nil => rfl
  | cons a l ih =>
    obtain ⟨ka, va⟩ := a
    rw [List.cons_append]
    by_cases hk : ka = k
    · simp only [Store.get] at h
      rw [if_pos hk] at h
      exact absurd h (by simp)
    · simp only [Store.get] at h ⊢
      rw [if_neg hk] at h ⊢
      exact ih h

theorem Store.get_optField_ne (k k' : String) (o : Option Json) (rest : Store)
    (h : k ≠ k') : Store.get (optField k' o ++ rest) k = Store.get rest k := by
  cases o with
  | none => rfl
  | some v =>
    show Store.get ((k', v) :: rest) k = Store.get rest k
    simp only [Store.get]
    rw [if_neg (fun he => h he.symm)]

theorem Store.get_optField_some (k : String) (v : Json) (rest : Store) :
    Store.get (optField k (some v) ++ rest) k = some v := by
  show Store.get ((k, v) :: rest) k = some v
  simp [Store.get]

theorem Store.get_optField_none (k : String) (rest : Store) :
    Store.get (optField k none ++ rest) k = Store.get rest k := rfl

theorem str_ne_of_data_ne (a b : String) (h : a.data ≠ b.data) : a ≠ b :=
  fun he => h (congrArg String.data he)

theorem str_append_right_ne (p a b : String) (h : a.data ≠ b.data) :
    p ++ a ≠ p ++ b := by
  intro he
  have hd := congrArg String.data he
  rw [String.data_append, String.data_append] at hd
  exact h (List.append_cancel_left hd)

theorem book_key_ne (i a b : String) (h : a.data ≠ b.data) :
    "book:" ++ i ++ a ≠ "book:" ++ i ++ b :=
  str_append_right_ne ("book:" ++ i) a b h

theorem append_ne_of_take11 (i t : String)
    (h : t.data.take 11 ≠ "/api/books/".data) : "/api/books/" ++ i ≠ t := by
  intro he
  apply h
  rw [← he, String.data_append]
  have hlen : ("/api/books/".data).length = 11 := by decide
  rw [← hlen, List.take_left]

theorem jsStartsWith_api (i : String) :
    jsStartsWith ("/api/books/" ++ i) "/api/" = true := by
  have h0 : "/api/books/".data = "/api/".data ++ "books/".data := by decide
  have hd : ("/api/books/" ++ i).data = "/api/".data ++ ("books/".data ++ i.data) := by
    rw [String.data_append, h0, List.append_assoc]
  simp only [jsStartsWith, hd, decide_eq_true_eq]
  exact List.take_left _ _

theorem splitSep_no_sep (l : List Char) (h : ∀ c ∈ l, c ≠ '/' ∧ c ≠ '\\') :
    splitSep l = [l] := by
  induction l with
  | nil => rfl
  | cons a rest ih =>
    have ha := h a (List.mem_cons_self _ _)
    rw [splitSep, ih (fun c hc => h c (List.mem_cons_of_mem _ hc))]
    simp [ha.1, ha.2]

theorem encodeSeg_id (l : List Char) (h : ∀ c ∈ l, inPathEncodeSet c = false) :
    encodeSeg l = l := by
  induction l with
  | nil => rfl
  | cons a rest ih =>
    have ha := h a (List.mem_cons_self _ _)
    unfold encodeSeg at ih ⊢
    rw [List.map_cons, List.flatten_cons, ha, if_neg (show ¬ (false = true) by simp),
      ih (fun c hc => h c (List.mem_cons_of_mem _ hc))]
    rfl

theorem urlPathname_book (i : String) (hs : urlSafeSeg i.data) :
    urlPathname ("/api/books/" ++ i) = "/api/books/" ++ i := by
  obtain ⟨hchars, hsd, hdd⟩ := hs
  have htw : ("/api/books/" ++ i).data.takeWhile (fun c => c ≠ '?' ∧ c ≠ '#') =
      ("/api/books/" ++ i).data := by
    rw [List.takeWhile_eq_self_iff]
    intro c hc
    rw [String.data_append] at hc
    rcases List.mem_append.mp hc with hc | hc
    · exact decide_eq_true (by constructor <;> (intro he; subst he; revert hc; decide))
    · exact decide_eq_true ⟨(hchars c hc).2.2.1, (hchars c hc).2.2.2.1⟩
  have hdata : ("/api/books/" ++ i).data =
      '/' :: ('a' :: 'p' :: 'i' :: '/' :: 'b' :: 'o' :: 'o' :: 'k' :: 's' :: '/' :: i.data) := by
    rw [String.data_append,
      show "/api/books/".data = ['/', 'a', 'p', 'i', '/', 'b', 'o', 'o', 'k', 's', '/']
        from by decide]
    rfl
  have hsplit : splitSep ('a' :: 'p' :: 'i' :: '/' :: 'b' :: 'o' :: 'o' :: 'k' :: 's' ::
      '/' :: i.data) = [['a', 'p', 'i'], ['b', 'o', 'o', 'k', 's'], i.data] := by
    have hns := splitSep_no_sep i.data
      (fun c hc => ⟨(hchars c hc).1, (hchars c hc).2.1⟩)
    simp [splitSep, hns]
  have hproc : processSegs [] [['a', 'p', 'i'], ['b', 'o', 'o', 'k', 's'], i.data] =
      [['a', 'p', 'i'], ['b', 'o', 'o', 'k', 's'], i.data] := by
    rw [show processSegs [] [['a', 'p', 'i'], ['b', 'o', 'o', 'k', 's'], i.data] =
      processSegs [['a', 'p', 'i'], ['b', 'o', 'o', 'k', 's']] [i.data] from rfl]
    unfold processSegs
    rw [hdd, if_neg (show ¬ (false = true) by simp)]
    rw [hsd, if_neg (show ¬ (false = true) by simp)]
    rw [encodeSeg_id i.data (fun c hc => (hchars c hc).2.2.2.2)]
    rfl
  unfold urlPathname
  rw [htw, hdata]
  show String.mk ('/' :: joinSegs (processSegs [] (splitSep ('a' :: 'p' :: 'i' :: '/' ::
    'b' :: 'o' :: 'o' :: 'k' :: 's' :: '/' :: i.data)))) = "/api/books/" ++ i
  rw [hsplit, hproc]
  show String.mk ('/' :: ('a' :: 'p' :: 'i' :: '/' :: ('b' :: 'o' :: 'o' :: 'k' :: 's' ::
    '/' :: i.data))) = "/api/books/" ++ i
  rfl

theorem matchBookPath_book (i : String) (hne : i.data ≠ [])
    (hsl : '/' ∉ i.data) : matchBookPath ("/api/books/" ++ i) = some i := by
  have hd : ("/api/books/" ++ i).data = "/api/books/".data ++ i.data :=
    String.data_append _ _
  have hlen : ("/api/books/".data).length = 11 := by decide
  have htake : ("/api/books/" ++ i).data.take 11 = "/api/books/".data := by
    rw [hd, ← hlen, List.take_left]
  have hdrop : ("/api/books/" ++ i).data.drop 11 = i.data := by
    rw [hd, ← hlen, List.drop_left]
  unfold matchBookPath
  rw [if_pos ⟨htake, by rw [hdrop]; exact hne, by rw [hdrop]; exact hsl⟩, hdrop]

theorem msdDigits_lt10 (n : Nat) : ∀ d ∈ msdDigits n, d < 10 := by
  induction n using Nat.strong_induction_on with
  | _ n ih =>
    by_cases h : n < 10
    · rw [msdDigits, dif_pos h]
      intro d hd
      simp at hd
      omega
    · rw [msdDigits, dif_neg h]
      intro d hd
      rcases List.mem_append.mp hd with hm | hm
      · exact ih (n / 10) (Nat.div_lt_self (by omega) (by omega)) d hm
      · simp at hm
        omega

theorem msdDigits_length_le (k : Nat) :
    ∀ n, n < 10 ^ k → 0 < k → (msdDigits n).length ≤ k := by
  induction k with
  | zero => intro n _ h0; omega
  | succ k ih =>
    intro n h _
    by_cases hn : n < 10
    · rw [msdDigits, dif_pos hn]
      simp
    · rw [msdDigits, dif_neg hn]
      have hk : 0 < k := by
        rcases Nat.eq_zero_or_pos k with h0 | h0
        · subst h0; norm_num at h; omega
        · exact h0
      have hdiv : n / 10 < 10 ^ k := by
        rw [Nat.div_lt_iff_lt_mul (by omega)]
        calc n < 10 ^ (k + 1) := h
        _ = 10 ^ k * 10 := by ring
      have hlen := ih (n / 10) hdiv hk
      simp [List.length_append]
      omega

theorem msdDigits_val (n : Nat) :
    (msdDigits n).foldl (fun a d => a * 10 + d) 0 = n := by
  induction n using Nat.strong_induction_on with
  | _ n ih =>
    by_cases h : n < 10
    · rw [msdDigits, dif_pos h]
      simp
    · rw [msdDigits, dif_neg h]
      rw [List.foldl_append]
      rw [ih (n / 10) (Nat.div_lt_self (by omega) (by omega))]
      simp
      omega

theorem foldl_replicate_zero (m : Nat) (ds : List Nat) :
    (List.replicate m 0 ++ ds).foldl (fun a d => a * 10 + d) 0 =
      ds.foldl (fun a d => a * 10 + d) 0 := by
  induction m with
  | zero => rfl
  | succ m ih =>
    rw [List.replicate_succ, List.cons_append, List.foldl_cons]
    simpa using ih

theorem digitChar_isDigit (d : Nat) (h : d < 10) : (digitChar d).isDigit = true := by
  interval_cases d <;> decide

theorem digitChar_toNat (d : Nat) (h : d < 10) : (digitChar d).toNat - 48 = d := by
  interval_cases d <;> decide

theorem readFixed_digits (ds : List Nat) (rest : List Char) (h : ∀ d ∈ ds, d < 10) :
    ∀ acc, readFixed ds.length acc (ds.map digitChar ++ rest) =
      some (ds.foldl (fun a d => a * 10 + d) acc, rest) := by
  induction ds with
  | nil => intro acc; rfl
  | cons d ds ih =>
    intro acc
    have hd : d < 10 := h d (List.mem_cons_self _ _)
    simp only [List.map_cons, List.cons_append, List.length_cons, readFixed,
      digitChar_isDigit d hd, if_true, digitChar_toNat d hd, List.foldl_cons]
    exact ih (fun x hx => h x (List.mem_cons_of_mem _ hx)) (acc * 10 + d)

theorem readFixed_pad (w n : Nat) (rest : List Char) (hn : n < 10 ^ w) (hw : 0 < w) :
    readFixed w 0 (padChars w n ++ rest) = some (n, rest) := by
  have hlen : (msdDigits n).length ≤ w := msdDigits_length_le w n hn hw
  have hds : ∀ d ∈ List.replicate (w - (msdDigits n).length) 0 ++ msdDigits n, d < 10 := by
    intro d hd
    rcases List.mem_append.mp hd with hm | hm
    · rw [List.eq_of_mem_replicate hm]; omega
    · exact msdDigits_lt10 n d hm
  have hzero : digitChar 0 = '0' := by decide
  have hmap : padChars w n =
      (List.replicate (w - (msdDigits n).length) 0 ++ msdDigits n).map digitChar := by
    rw [padChars, List.map_append, List.map_replicate, hzero]
  have hlength : (List.replicate (w - (msdDigits n).length) 0 ++ msdDigits n).length = w := by
    simp [List.length_append, List.length_replicate]
    omega
  rw [hmap]
  nth_rewrite 1 [← hlength]
  rw [readFixed_digits _ rest hds 0, foldl_replicate_zero, msdDigits_val]

theorem readFixed_pad4 (n : Nat) {rest : List Char} (h : n < 10000) :
    readFixed 4 0 (padChars 4 n ++ rest) = some (n, rest) :=
  readFixed_pad 4 n rest (lt_of_lt_of_le h (by norm_num)) (by norm_num)

theorem readFixed_pad2 (n : Nat) {rest : List Char} (h : n < 100) :
    readFixed 2 0 (padChars 2 n ++ rest) = some (n, rest) :=
  readFixed_pad 2 n rest (lt_of_lt_of_le h (by norm_num)) (by norm_num)

theorem readFixed_pad3 (n : Nat) {rest : List Char} (h : n < 1000) :
    readFixed 3 0 (padChars 3 n ++ rest) = some (n, rest) :=
  readFixed_pad 3 n rest (lt_of_lt_of_le h (by norm_num)) (by norm_num)

theorem expectCh_self (c : Char) (l : List Char) : expectCh c (c :: l) = some l := by
  simp [expectCh]

theorem parseIso_iso (d : DateTime) (h : d.valid) :
    parseIso (isoTimestamp d) = some d := by
  obtain ⟨y, mo, dd, hh, mi, ss, ms⟩ := d
  obtain ⟨h1, h2, h3, h4, h5, h6, h7, h8, h9⟩ := h
  dsimp only at h1 h2 h3 h4 h5 h6 h7 h8 h9
  show parseIsoChars (isoChars ⟨y, mo, dd, hh, mi, ss, ms⟩) = _
  rw [isoChars]
  simp only [parseIsoChars, expectCh_self,
    readFixed_pad4 y (by omega), readFixed_pad2 mo (by omega),
    readFixed_pad2 dd (by omega), readFixed_pad2 hh (by omega),
    readFixed_pad2 mi (by omega), readFixed_pad2 ss (by omega),
    readFixed_pad3 ms (by omega)]
  rw [if_pos ⟨trivial, h2, h3, h4, h5, h6, h7, h8⟩]

theorem jsonField_sendJson (j : Json) (st : Nat) (k : String) :
    (sendJson j st).jsonField k = j.getField k := rfl

theorem get_ite_set_ne (c : Prop) [Decidable c] (a : Store) (k' k : String) (v : Json)
    (h : k ≠ k') : Store.get (if c then a.set k' v else a) k = a.get k := by
  split
  · exact Store.get_set_ne a k' k v h
  · rfl

theorem getField_setField_ne (L : List (String × Json)) (k0 k : String) (v : Json)
    (h : k ≠ k0) : (setField (.obj L) k0 v).getField k = Store.get L k := by
  show Store.get (L.filter (fun p => p.1 ≠ k0) ++ [(k0, v)]) k = _
  rw [← Store.get_filter_ne L k k0 h]
  cases hg : Store.get (L.filter (fun p => p.1 ≠ k0)) k with
  | none =>
    rw [Store.get_append_none _ _ _ hg]
    simp [Store.get, Ne.symm h]
  | some w => rw [Store.get_append_some _ _ _ _ hg]

theorem server_api (s : Store) (fs : FS) (dir : String) (now : DateTime)
    (method url : String) (body : Json) (hm : method ≠ "OPTIONS")
    (hurl : jsStartsWith url "/api/" = true) :
    server (some s) fs dir now ⟨method, url, body⟩ =
      ((apiRoutes s method (urlPathname url) body now).1,
        some (apiRoutes s method (urlPathname url) body now).2) := by
  unfold server
  rw [if_pos hurl]
  unfold handleApi
  rw [if_neg hm]

theorem apiRoutes_post_books (s : Store) (body : Json) (now : DateTime) :
    apiRoutes s "POST" "/api/books" body now = postBooks s body now := by
  unfold apiRoutes
  rw [if_neg (fun hc => absurd hc.2 (by decide))]
  rw [if_neg (fun hc => absurd hc.2 (by decide))]
  rw [if_pos ⟨rfl, rfl⟩]

theorem apiRoutes_get_book (s : Store) (i : String) (body : Json) (now : DateTime)
    (hne : i.data ≠ []) (hsl : '/' ∉ i.data) :
    apiRoutes s "GET" ("/api/books/" ++ i) body now = (getBook s i, s) := by
  unfold apiRoutes
  rw [if_neg (fun hc => absurd hc.1 (append_ne_of_take11 i "/api/books" (by decide)))]
  rw [if_pos ⟨by rw [matchBookPath_book i hne hsl]; rfl, rfl⟩]
  rw [matchBookPath_book i hne hsl]
  rfl

theorem apiRoutes_get_book_404 (s : Store) (i : String) (body : Json) (now : DateTime)
    (hm : matchBookPath ("/api/books/" ++ i) = none) :
    apiRoutes s "GET" ("/api/books/" ++ i) body now =
      (sendJson (.obj [("error", .str "Not found")]) 404, s) := by
  unfold apiRoutes
  rw [if_neg (fun hc => absurd hc.1 (append_ne_of_take11 i "/api/books" (by decide)))]
  rw [if_neg (fun hc => by rw [hm] at hc; exact absurd hc.1 (by simp))]
  rw [if_neg (fun hc => absurd hc.2 (by decide))]
  rw [if_neg (fun hc => absurd hc.2 (by decide))]
  rw [if_neg (fun hc => absurd hc.1 (append_ne_of_take11 i "/api/progress" (by decide)))]
  rw [if_neg (fun hc => absurd hc.2 (by decide))]
  rw [if_neg (fun hc => absurd hc.1 (append_ne_of_take11 i "/api/notes" (by decide)))]
  rw [if_neg (fun hc => absurd hc.2 (by decide))]
  rw [if_neg (fun hc => absurd hc.1 (append_ne_of_take11 i "/api/status" (by decide)))]

theorem apiRoutes_delete_book (s : Store) (i : String) (body : Json) (now : DateTime)
    (hne : i.data ≠ []) (hsl : '/' ∉ i.data) :
    apiRoutes s "DELETE" ("/api/books/" ++ i) body now = deleteBook s i := by
  unfold apiRoutes
  rw [if_neg (fun hc => absurd hc.2 (by decide))]
  rw [if_neg (fun hc => absurd hc.2 (by decide))]
  rw [if_neg (fun hc => absurd hc.2 (by decide))]
  rw [if_pos ⟨by rw [matchBookPath_book i hne hsl]; rfl, rfl⟩]
  rw [matchBookPath_book i hne hsl]
  rfl

theorem apiRoutes_post_progress (s : Store) (body : Json) (now : DateTime) :
    apiRoutes s "POST" "/api/progress" body now = postProgress s body := by
  unfold apiRoutes
  rw [if_neg (fun hc => absurd hc.1 (by decide))]
  rw [if_neg (fun hc => absurd hc.2 (by decide))]
  rw [if_neg (fun hc => absurd hc.1 (by decide))]
  rw [if_neg (fun hc => absurd hc.2 (by decide))]
  rw [if_neg (fun hc => absurd hc.2 (by decide))]
  rw [if_pos ⟨rfl, rfl⟩]

theorem apiRoutes_get_progress (s : Store) (body : Json) (now : DateTime) :
    apiRoutes s "GET" "/api/progress" body now = (getProgress s, s) := by
  unfold apiRoutes
  rw [if_neg (fun hc => absurd hc.1 (by decide))]
  rw [if_neg (fun hc => by
    rw [show matchBookPath "/api/progress" = none from rfl] at hc
    exact absurd hc.1 (by simp))]
  rw [if_neg (fun hc => absurd hc.1 (by decide))]
  rw [if_neg (fun hc => absurd hc.2 (by decide))]
  rw [if_pos ⟨rfl, rfl⟩]

theorem isNull_false_of_getField (body : Json) (k : String) (v : Json)
    (h : body.getField k = some v) : body.isNull = false := by
  cases body <;> first
    | rfl
    | exact absurd h (by simp [Json.getField])

theorem getBook_found (s : Store) (i : String) (m : Json)
    (hm : s.get ("book:" ++ i ++ ":meta") = some m) :
    getBook s i =
      sendJson (setField m "rawData" (jsNullable (s.get ("book:" ++ i ++ ":data")))) 200 := by
  unfold getBook
  rw [hm]

theorem getBook_missing (s : Store) (i : String)
    (hm : s.get ("book:" ++ i ++ ":meta") = none) :
    getBook s i = sendJson (.obj [("error", .str "Book not found")]) 404 := by
  unfold getBook
  rw [hm]

theorem postBooks_effect (s : Store) (body : Json) (now : DateTime) (i : String)
    (hid : body.getField "id" = some (.str i)) (hi : i ≠ "")
    (hnm : truthyO (body.getField "name") = true) :
    (postBooks s body now).1 =
      sendJson (.obj [("success", .bool true), ("id", .str i)]) 200 ∧
    (postBooks s body now).2.get ("book:" ++ i ++ ":meta") = some (.obj
      (optField "id" (some (.str i)) ++ (optField "name" (body.getField "name") ++
        (optField "type" (body.getField "type") ++ (optField "size" (body.getField "size") ++
        (optField "metadata" (body.getField "metadata") ++
        [("savedAt", .str (isoTimestamp now))])))))) ∧
    (∀ k, k ≠ "book:" ++ i ++ ":meta" → k ≠ "book:" ++ i ++ ":data" →
      k ≠ "book:" ++ i ++ ":content" → (postBooks s body now).2.get k = s.get k) ∧
    (truthyO (body.getField "rawData") = false →
      (postBooks s body now).2.get ("book:" ++ i ++ ":data") =
        s.get ("book:" ++ i ++ ":data")) ∧
    ((truthyO (body.getField "content") = false ∧
        truthyO (body.getField "chapters") = false) →
      (postBooks s body now).2.get ("book:" ++ i ++ ":content") =
        s.get ("book:" ++ i ++ ":content")) := by
  have hdm : ("book:" ++ i ++ ":data") ≠ ("book:" ++ i ++ ":meta") :=
    book_key_ne i ":data" ":meta" (by decide)
  have hcm : ("book:" ++ i ++ ":content") ≠ ("book:" ++ i ++ ":meta") :=
    book_key_ne i ":content" ":meta" (by decide)
  have hmd : ("book:" ++ i ++ ":meta") ≠ ("book:" ++ i ++ ":data") := fun he => hdm he.symm
  have hmc : ("book:" ++ i ++ ":meta") ≠ ("book:" ++ i ++ ":content") := fun he => hcm he.symm
  have hdc : ("book:" ++ i ++ ":data") ≠ ("book:" ++ i ++ ":content") :=
    book_key_ne i ":data" ":content" (by decide)
  have hcd : ("book:" ++ i ++ ":content") ≠ ("book:" ++ i ++ ":data") := fun he => hdc he.symm
  have hnull : body.isNull = false := isNull_false_of_getField body "id" (Json.str i) hid
  unfold postBooks
  rw [hnull, if_neg (show ¬ (false = true) by simp)]
  rw [hid]
  rw [if_neg (fun hc => hc.elim
    (fun h1 => by simp [truthyO, truthy, hi] at h1)
    (fun h2 => by rw [hnm] at h2; cases h2))]
  rw [show jsToString (jsNullable (some (Json.str i))) = i from rfl]
  dsimp only
  refine ⟨rfl, ?_, ?_, ?_, ?_⟩
  · rw [get_ite_set_ne _ _ _ _ _ hmc, get_ite_set_ne _ _ _ _ _ hmd, Store.get_set_same]
  · intro k h1 h2 h3
    rw [get_ite_set_ne _ _ _ _ _ h3, get_ite_set_ne _ _ _ _ _ h2,
      Store.get_set_ne _ _ _ _ h1]
  · intro hraw
    rw [get_ite_set_ne _ _ _ _ _ hdc, hraw]
    rw [if_neg (show ¬ (false = true) by simp)]
    rw [Store.get_set_ne _ _ _ _ hdm]
  · intro hcc
    rw [hcc.1, hcc.2]
    rw [if_neg (show ¬ ((false || false) = true) by simp)]
    rw [get_ite_set_ne _ _ _ _ _ hcd, Store.get_set_ne _ _ _ _ hcm]

theorem apiRoutes_header_cors (s : Store) (method pathname : String) (body : Json)
    (now : DateTime) :
    (apiRoutes s method pathname body now).1.header "Access-Control-Allow-Origin" =
      some "*" := by
  unfold apiRoutes listBooks getBook postBooks deleteBook getProgress postProgress
    getNotes postNotes getStatus
  dsimp only
  repeat' split
  all_goals rfl

/-- Claim C1, counterexample: with no store configured, an OPTIONS request
to a path under the API root is answered 204 by the preflight branch (which
runs before the availability check), not 503, and its body has no error
field. -/
theorem c1_counterexample :
    (server none [] "/app" dt0 ⟨"OPTIONS", "/api/books", Json.obj []⟩).1.status = 204 ∧
    (server none [] "/app" dt0 ⟨"OPTIONS", "/api/books", Json.obj []⟩).1.status ≠ 503 ∧
    (server none [] "/app" dt0 ⟨"OPTIONS", "/api/books", Json.obj []⟩).1.jsonField "error" =
      none :=
  ⟨rfl, by decide, rfl⟩

/-- Claim C1 (amended): when no store client is configured, every request
to a path under the API root whose method is not OPTIONS receives a 503
response whose JSON body carries the storage-unavailable error field;
OPTIONS requests are answered by the preflight branch instead. -/
theorem c1_unconfigured_api_503 (method url : String) (body : Json) (fs : FS)
    (dir : String) (now : DateTime) (hm : method ≠ "OPTIONS")
    (hurl : jsStartsWith url "/api/" = true) :
    (server none fs dir now ⟨method, url, body⟩).1.status = 503 ∧
    (server none fs dir now ⟨method, url, body⟩).1.jsonField "error" =
      some (.str "Cloud storage not available") := by
  have hs : server none fs dir now ⟨method, url, body⟩ =
      (sendJson (.obj [("error", .str "Cloud storage not available")]) 503, none) := by
    unfold server
    rw [if_pos hurl]
    unfold handleApi
    rw [if_neg hm]
  rw [hs]
  exact ⟨rfl, rfl⟩

/-- Witness for the amended C1 at a concrete request. -/
theorem c1_witness :
    (server none [] "/app" dt0 ⟨"GET", "/api/books", Json.obj []⟩).1.status = 503 ∧
    (server none [] "/app" dt0 ⟨"GET", "/api/books", Json.obj []⟩).1.jsonField "error" =
      some (.str "Cloud storage not available") :=
  c1_unconfigured_api_503 "GET" "/api/books" (Json.obj []) [] "/app" dt0
    (by decide) (by decide)

/-- Claim C2, counterexample: a static file response (the entry document
served at the root) carries no permissive cross-origin header. -/
theorem c2_counterexample :
    (server (some []) fs0 "/app" dt0 ⟨"GET", "/", Json.obj []⟩).1.status = 200 ∧
    (server (some []) fs0 "/app" dt0 ⟨"GET", "/", Json.obj []⟩).1.header
      "Access-Control-Allow-Origin" = none :=
  ⟨rfl, rfl⟩

/-- Claim C2 (amended): every response produced by the API handler —
preflight, storage-unavailable error, and every route outcome — carries the
permissive cross-origin header, but responses of the static file server
(including the SPA fallback and its error paths) carry no such header. -/
theorem c2_cors_api_only :
    (∀ (redis : Option Store) (method url : String) (body : Json) (now : DateTime),
      (handleApi redis method url body now).1.header "Access-Control-Allow-Origin" =
        some "*") ∧
    (∀ (fs : FS) (dir url : String),
      (serveStatic fs dir url).header "Access-Control-Allow-Origin" = none) := by
  constructor
  · intro redis method url body now
    by_cases hm : method = "OPTIONS"
    · subst hm
      rfl
    · cases redis with
      | none =>
        unfold handleApi
        rw [if_neg hm]
        rfl
      | some s =>
        unfold handleApi
        rw [if_neg hm]
        exact apiRoutes_header_cors s method (urlPathname url) body now
  · intro fs dir url
    unfold serveStatic
    repeat' split
    all_goals rfl

/-- Claim C7, counterexample: an OPTIONS request to a non-API path is
handled by the static file server (the preflight branch is only reached
under the API root) and here returns 200 with the entry document, not
204. -/
theorem c7_counterexample :
    (server (some []) fs0 "/app" dt0 ⟨"OPTIONS", "/", Json.obj []⟩).1.status = 200 ∧
    (server (some []) fs0 "/app" dt0 ⟨"OPTIONS", "/", Json.obj []⟩).1.status ≠ 204 :=
  ⟨rfl, by decide⟩

/-- Claim C7 (amended): an OPTIONS request to any path under the API root
returns 204 with an empty body and the three cross-origin headers,
regardless of the store state; OPTIONS requests to other paths fall through
to the static file server. -/
theorem c7_preflight (redis : Option Store) (fs : FS) (dir url : String)
    (body : Json) (now : DateTime) (hurl : jsStartsWith url "/api/" = true) :
    server redis fs dir now ⟨"OPTIONS", url, body⟩ = (preflightResponse, redis) ∧
    preflightResponse.status = 204 ∧ preflightResponse.body = RBody.empty ∧
    preflightResponse.header "Access-Control-Allow-Origin" = some "*" ∧
    preflightResponse.header "Access-Control-Allow-Methods" =
      some "GET, POST, PUT, DELETE, OPTIONS" ∧
    preflightResponse.header "Access-Control-Allow-Headers" = some "Content-Type" := by
  refine ⟨?_, rfl, rfl, rfl, rfl, rfl⟩
  unfold server
  rw [if_pos hurl]
  rfl

/-- Witness for the amended C7 at a concrete request with no store. -/
theorem c7_witness :
    server none [] "/app" dt0 ⟨"OPTIONS", "/api/notes", Json.obj []⟩ =
      (preflightResponse, none) ∧
    preflightResponse.status = 204 ∧ preflightResponse.body = RBody.empty ∧
    preflightResponse.header "Access-Control-Allow-Origin" = some "*" ∧
    preflightResponse.header "Access-Control-Allow-Methods" =
      some "GET, POST, PUT, DELETE, OPTIONS" ∧
    preflightResponse.header "Access-Control-Allow-Headers" = some "Content-Type" :=
  c7_preflight none [] "/app" "/api/notes" (Json.obj []) dt0 (by decide)

/-- Claim C10: static path resolution URL-decodes the request path and
joins it onto the root directory with no containment check, so a path with
encoded dot-dot segments resolves outside the root: the resolved path is
not a descendant of the root directory. -/
theorem c10_no_containment :
    resolveStatic "/approot" "/%2e%2e/etc/passwd" = "/etc/passwd" ∧
    jsStartsWith (resolveStatic "/approot" "/%2e%2e/etc/passwd") "/approot" = false := by
  constructor
  · decide
  · decide

/-- Claim C4, counterexample: for the id containing a question mark, the
URL parser cuts the pathname at the query separator, so the request reaches
the record of a different book and answers 200, although the store holds
nothing under the full id's meta key. -/
theorem c4_counterexample :
    Store.get sA "book:a?x:meta" = none ∧
    (server (some sA) [] "/app" dt0 ⟨"GET", "/api/books/a?x", Json.obj []⟩).1.status = 200 ∧
    (server (some sA) [] "/app" dt0 ⟨"GET", "/api/books/a?x", Json.obj []⟩).1.status ≠ 404 :=
  ⟨rfl, rfl, by decide⟩

/-- Claim C4 (amended): for every id that the URL parser passes through
verbatim — free of the separators slash and backslash, of question mark
and hash, and of percent-encoded characters, and not a dot segment — if
the store holds no value under the meta key of that id, a GET of the book
path for that id returns 404: through the missing-meta branch when the id
is nonempty, and through the final not-found route when it is empty. -/
theorem c4_get_missing_404 (s : Store) (i : String) (getBody : Json) (fs : FS)
    (dir : String) (now : DateTime)
    (hsafe : urlSafeSeg i.data)
    (hmeta : s.get ("book:" ++ i ++ ":meta") = none) :
    (server (some s) fs dir now ⟨"GET", "/api/books/" ++ i, getBody⟩).1.status = 404 := by
  rw [server_api s fs dir now "GET" ("/api/books/" ++ i) getBody (by decide)
    (jsStartsWith_api i)]
  rw [urlPathname_book i hsafe]
  by_cases hgood : i.data ≠ [] ∧ '/' ∉ i.data
  · rw [apiRoutes_get_book s i getBody now hgood.1 hgood.2]
    rw [show (((getBook s i, s).1, some (getBook s i, s).2).1) = getBook s i from rfl]
    rw [getBook_missing s i hmeta]
    rfl
  · have hm : matchBookPath ("/api/books/" ++ i) = none := by
      unfold matchBookPath
      rw [if_neg]
      intro hcond
      apply hgood
      have hd : ("/api/books/" ++ i).data = "/api/books/".data ++ i.data :=
        String.data_append _ _
      have hlen : ("/api/books/".data).length = 11 := by decide
      have hdrop : ("/api/books/" ++ i).data.drop 11 = i.data := by
        rw [hd, ← hlen, List.drop_left]
      rw [hdrop] at hcond
      exact ⟨hcond.2.1, hcond.2.2⟩
    rw [apiRoutes_get_book_404 s i getBody now hm]
    rfl

/-- Witness for the amended C4 at a concrete id absent from a nonempty
store. -/
theorem c4_witness :
    (server (some sA) [] "/app" dt0 ⟨"GET", "/api/books/zz", Json.obj []⟩).1.status = 404 :=
  c4_get_missing_404 sA "zz" (Json.obj []) [] "/app" dt0 (by decide) (by rfl)

/-- Claim C5, counterexample: for an id containing a slash the DELETE
request misses the book route (the route segment regular expression rejects
slashes), answers the JSON 404 with no success field, and leaves the
store — including that id's meta key — untouched. -/
theorem c5_counterexample :
    (server (some sSlash) [] "/app" dt0
      ⟨"DELETE", "/api/books/a/b", Json.obj []⟩).1.status = 404 ∧
    (server (some sSlash) [] "/app" dt0
      ⟨"DELETE", "/api/books/a/b", Json.obj []⟩).1.jsonField "success" = none ∧
    (server (some sSlash) [] "/app" dt0
      ⟨"DELETE", "/api/books/a/b", Json.obj []⟩).2 = some sSlash :=
  ⟨rfl, rfl, rfl⟩

/-- Claim C5 (amended): for every nonempty id that the URL parser passes
through verbatim (free of slash, backslash, question mark, hash and
percent-encoded characters, and not a dot segment), DELETE of the book
path removes the meta, data and content keys of that id, leaves every
other key unchanged, and answers success, whatever the prior store
state — hence deleting twice yields success both times. -/
theorem c5_delete_removes_keys (s : Store) (i : String) (body : Json) (fs : FS)
    (dir : String) (now : DateTime) (hne : i.data ≠ [])
    (hsafe : urlSafeSeg i.data) :
    (server (some s) fs dir now ⟨"DELETE", "/api/books/" ++ i, body⟩).1 =
      sendJson (.obj [("success", .bool true)]) 200 ∧
    (server (some s) fs dir now ⟨"DELETE", "/api/books/" ++ i, body⟩).2 =
      some (((s.del ("book:" ++ i ++ ":meta")).del ("book:" ++ i ++ ":data")).del
        ("book:" ++ i ++ ":content")) ∧
    (((s.del ("book:" ++ i ++ ":meta")).del ("book:" ++ i ++ ":data")).del
      ("book:" ++ i ++ ":content")).get ("book:" ++ i ++ ":meta") = none ∧
    (((s.del ("book:" ++ i ++ ":meta")).del ("book:" ++ i ++ ":data")).del
      ("book:" ++ i ++ ":content")).get ("book:" ++ i ++ ":data") = none ∧
    (((s.del ("book:" ++ i ++ ":meta")).del ("book:" ++ i ++ ":data")).del
      ("book:" ++ i ++ ":content")).get ("book:" ++ i ++ ":content") = none ∧
    (∀ k, k ≠ "book:" ++ i ++ ":meta" → k ≠ "book:" ++ i ++ ":data" →
      k ≠ "book:" ++ i ++ ":content" →
      (((s.del ("book:" ++ i ++ ":meta")).del ("book:" ++ i ++ ":data")).del
        ("book:" ++ i ++ ":content")).get k = s.get k) := by
  have hmc : ("book:" ++ i ++ ":meta") ≠ ("book:" ++ i ++ ":content") :=
    book_key_ne i ":meta" ":content" (by decide)
  have hmd : ("book:" ++ i ++ ":meta") ≠ ("book:" ++ i ++ ":data") :=
    book_key_ne i ":meta" ":data" (by decide)
  have hdc : ("book:" ++ i ++ ":data") ≠ ("book:" ++ i ++ ":content") :=
    book_key_ne i ":data" ":content" (by decide)
  have hsl : '/' ∉ i.data := fun hm => (hsafe.1 '/' hm).1 rfl
  rw [server_api s fs dir now "DELETE" ("/api/books/" ++ i) body (by decide)
    (jsStartsWith_api i)]
  rw [urlPathname_book i hsafe]
  rw [apiRoutes_delete_book s i body now hne hsl]
  refine ⟨rfl, rfl, ?_, ?_, ?_, ?_⟩
  · rw [Store.get_del_ne _ _ _ hmc, Store.get_del_ne _ _ _ hmd, Store.get_del_same]
  · rw [Store.get_del_ne _ _ _ hdc, Store.get_del_same]
  · rw [Store.get_del_same]
  · intro k h1 h2 h3
    rw [Store.get_del_ne _ _ _ h3, Store.get_del_ne _ _ _ h2, Store.get_del_ne _ _ _ h1]

/-- Witness for the amended C5 at a concrete id and store. -/
theorem c5_witness :
    (server (some [("book:b1:meta", Json.str "m")]) [] "/app" dt0
      ⟨"DELETE", "/api/books/b1", Json.obj []⟩).1 =
      sendJson (.obj [("success", .bool true)]) 200 ∧
    (server (some [("book:b1:meta", Json.str "m")]) [] "/app" dt0
      ⟨"DELETE", "/api/books/b1", Json.obj []⟩).2 =
      some (Store.del (Store.del (Store.del [("book:b1:meta", Json.str "m")]
        ("book:" ++ "b1" ++ ":meta")) ("book:" ++ "b1" ++ ":data"))
        ("book:" ++ "b1" ++ ":content")) ∧
    Store.get (Store.del (Store.del (Store.del [("book:b1:meta", Json.str "m")]
      ("book:" ++ "b1" ++ ":meta")) ("book:" ++ "b1" ++ ":data"))
      ("book:" ++ "b1" ++ ":content")) ("book:" ++ "b1" ++ ":meta") = none ∧
    Store.get (Store.del (Store.del (Store.del [("book:b1:meta", Json.str "m")]
      ("book:" ++ "b1" ++ ":meta")) ("book:" ++ "b1" ++ ":data"))
      ("book:" ++ "b1" ++ ":content")) ("book:" ++ "b1" ++ ":data") = none ∧
    Store.get (Store.del (Store.del (Store.del [("book:b1:meta", Json.str "m")]
      ("book:" ++ "b1" ++ ":meta")) ("book:" ++ "b1" ++ ":data"))
      ("book:" ++ "b1" ++ ":content")) ("book:" ++ "b1" ++ ":content") = none ∧
    (∀ k, k ≠ "book:" ++ "b1" ++ ":meta" → k ≠ "book:" ++ "b1" ++ ":data" →
      k ≠ "book:" ++ "b1" ++ ":content" →
      Store.get (Store.del (Store.del (Store.del [("book:b1:meta", Json.str "m")]
        ("book:" ++ "b1" ++ ":meta")) ("book:" ++ "b1" ++ ":data"))
        ("book:" ++ "b1" ++ ":content")) k =
        Store.get [("book:b1:meta", Json.str "m")] k) :=
  c5_delete_removes_keys [("book:b1:meta", Json.str "m")] "b1" (Json.obj []) []
    "/app" dt0 (by decide) (by decide)

/-- Claim C6, counterexample: a progress field that is present but falsy
(the boolean false) is replaced by the empty record, so the subsequent GET
returns the empty record rather than the posted value. -/
theorem c6_counterexample :
    (server (server (some []) [] "/app" dt0
        ⟨"POST", "/api/progress", Json.obj [("progress", Json.bool false)]⟩).2
      [] "/app" dt0 ⟨"GET", "/api/progress", Json.obj []⟩).1.jsonField "progress" =
      some (Json.obj []) ∧
    (server (server (some []) [] "/app" dt0
        ⟨"POST", "/api/progress", Json.obj [("progress", Json.bool false)]⟩).2
      [] "/app" dt0 ⟨"GET", "/api/progress", Json.obj []⟩).1.jsonField "progress" ≠
      some (Json.bool false) :=
  ⟨rfl, fun h => Json.noConfusion (Option.some.inj h)⟩

/-- Claim C6 (amended): for every parsed request body other than JSON null,
POST of progress replaces the single global progress key wholesale with
the body's progress field, substituting the empty record when that field
is absent or falsy (false, 0, the empty string, null), and a subsequent
GET (no interleaving writes) returns exactly the stored record; a parsed
body of JSON null makes the handler's property access throw, answered as
a 500 with no store write. -/
theorem c6_progress_roundtrip (s : Store) (body getBody : Json) (fs : FS)
    (dir : String) (now : DateTime) (hb : body.isNull = false) :
    (server (some s) fs dir now ⟨"POST", "/api/progress", body⟩).1 =
      sendJson (.obj [("success", .bool true)]) 200 ∧
    (server (some s) fs dir now ⟨"POST", "/api/progress", body⟩).2 =
      some (s.set "user:progress" (jsOrElse (body.getField "progress") (.obj []))) ∧
    (server (some (s.set "user:progress" (jsOrElse (body.getField "progress") (.obj []))))
        fs dir now ⟨"GET", "/api/progress", getBody⟩).1.jsonField "progress" =
      some (jsOrElse (body.getField "progress") (.obj [])) ∧
    (server (some s) fs dir now ⟨"POST", "/api/progress", Json.null⟩).1.status = 500 ∧
    (server (some s) fs dir now ⟨"POST", "/api/progress", Json.null⟩).2 = some s := by
  rw [server_api s fs dir now "POST" "/api/progress" body (by decide) (by decide)]
  rw [server_api s fs dir now "POST" "/api/progress" Json.null (by decide) (by decide)]
  rw [show urlPathname "/api/progress" = "/api/progress" from rfl]
  rw [apiRoutes_post_progress, apiRoutes_post_progress]
  unfold postProgress
  rw [hb, if_neg (show ¬ (false = true) by simp)]
  refine ⟨rfl, rfl, ?_, rfl, rfl⟩
  rw [server_api _ fs dir now "GET" "/api/progress" getBody (by decide) (by decide)]
  rw [show urlPathname "/api/progress" = "/api/progress" from rfl, apiRoutes_get_progress]
  show (getProgress (s.set "user:progress" _)).jsonField "progress" = _
  unfold getProgress
  rw [jsonField_sendJson, Store.get_set_same]
  rfl

/-- Witness for the amended C6 at the spec's own example record. -/
theorem c6_witness :
    (server (some []) [] "/app" dt0 ⟨"POST", "/api/progress",
      Json.obj [("progress", Json.obj [("doc1", Json.num 42)])]⟩).1 =
      sendJson (.obj [("success", .bool true)]) 200 ∧
    (server (some []) [] "/app" dt0 ⟨"POST", "/api/progress",
      Json.obj [("progress", Json.obj [("doc1", Json.num 42)])]⟩).2 =
      some (Store.set [] "user:progress"
        (jsOrElse ((Json.obj [("progress", Json.obj [("doc1", Json.num 42)])]).getField
          "progress") (.obj []))) ∧
    (server (some (Store.set [] "user:progress"
        (jsOrElse ((Json.obj [("progress", Json.obj [("doc1", Json.num 42)])]).getField
          "progress") (.obj []))))
        [] "/app" dt0 ⟨"GET", "/api/progress", Json.obj []⟩).1.jsonField "progress" =
      some (jsOrElse ((Json.obj [("progress", Json.obj [("doc1", Json.num 42)])]).getField
        "progress") (.obj [])) ∧
    (server (some []) [] "/app" dt0 ⟨"POST", "/api/progress", Json.null⟩).1.status = 500 ∧
    (server (some []) [] "/app" dt0 ⟨"POST", "/api/progress", Json.null⟩).2 = some [] :=
  c6_progress_roundtrip [] (Json.obj [("progress", Json.obj [("doc1", Json.num 42)])])
    (Json.obj []) [] "/app" dt0 (by rfl)

/-- Claim C8, counterexample: a non-ENOENT read error on the requested
path (here an explicit failing entry in the file system) produces a bare
500 even though the entry document itself is perfectly readable, so the
SPA fallback is not the only source of the requested path's failure
handling and 500 does not imply an unreadable entry document. -/
theorem c8_counterexample :
    (server (some []) fs1 "/app" dt0 ⟨"GET", "/x", Json.obj []⟩).1.status = 500 ∧
    readFile fs1 (entryPath "/app") = ReadResult.ok "<html>" ∧
    (server (some []) fs1 "/app" dt0 ⟨"GET", "/x", Json.obj []⟩).1.status ≠ 200 :=
  ⟨rfl, rfl, by decide⟩

/-- Claim C8 (amended): for a non-API request path whose file read fails
with not-found, the server responds 200 with the entry document's content
as text/html (SPA fallback); a 500 arises when the entry document itself
cannot be read, and also when the requested path's read fails with an
error other than not-found even though the entry document is readable. -/
theorem c8_spa_fallback (redis : Option Store) (fs : FS) (dir url method : String)
    (body : Json) (now : DateTime) (c : String)
    (hurl : jsStartsWith url "/api/" = false) :
    (readFile fs (resolveStatic dir url) = ReadResult.enoent →
      readFile fs (entryPath dir) = ReadResult.ok c →
      (server redis fs dir now ⟨method, url, body⟩).1 =
        { status := 200, headers := [("Content-Type", "text/html")],
          body := RBody.text c }) ∧
    (readFile fs (resolveStatic dir url) = ReadResult.fail →
      (server redis fs dir now ⟨method, url, body⟩).1.status = 500) := by
  have hs : server redis fs dir now ⟨method, url, body⟩ = (serveStatic fs dir url, redis) := by
    unfold server
    rw [if_neg (by simp [hurl])]
  constructor
  · intro h1 h2
    rw [hs]
    show serveStatic fs dir url = _
    unfold serveStatic
    rw [h1, h2]
  · intro h1
    rw [hs]
    show (serveStatic fs dir url).status = 500
    unfold serveStatic
    rw [h1]

/-- Witness for the amended C8: a missing static path served with the
entry document. -/
theorem c8_witness :
    (server (some []) fs0 "/app" dt0 ⟨"GET", "/nope", Json.obj []⟩).1 =
      { status := 200, headers := [("Content-Type", "text/html")],
        body := RBody.text "<html>" } :=
  (c8_spa_fallback (some []) fs0 "/app" "/nope" "GET" (Json.obj []) dt0 "<html>"
    (by decide)).1 (by rfl) (by rfl)

/-- Claim C9: POST of a book with a given string id writes only that id's
meta, data and content keys — every other key of the store is unchanged —
and the data and content keys are written only when the corresponding
optional body fields are present (truthy); this holds on the 400 path too,
where nothing is written. -/
theorem c9_post_frame (s : Store) (body : Json) (fs : FS) (dir : String)
    (now : DateTime) (i : String)
    (hid : body.getField "id" = some (.str i)) :
    ∃ s', (server (some s) fs dir now ⟨"POST", "/api/books", body⟩).2 = some s' ∧
      (∀ k, k ≠ "book:" ++ i ++ ":meta" → k ≠ "book:" ++ i ++ ":data" →
        k ≠ "book:" ++ i ++ ":content" → s'.get k = s.get k) ∧
      (truthyO (body.getField "rawData") = false →
        s'.get ("book:" ++ i ++ ":data") = s.get ("book:" ++ i ++ ":data")) ∧
      ((truthyO (body.getField "content") = false ∧
          truthyO (body.getField "chapters") = false) →
        s'.get ("book:" ++ i ++ ":content") = s.get ("book:" ++ i ++ ":content")) := by
  rw [server_api s fs dir now "POST" "/api/books" body (by decide) (by decide)]
  rw [show urlPathname "/api/books" = "/api/books" from rfl, apiRoutes_post_books]
  by_cases hok : truthyO (body.getField "id") = true ∧ truthyO (body.getField "name") = true
  · have hi : i ≠ "" := by
      have ht := hok.1
      rw [hid] at ht
      simp [truthyO, truthy] at ht
      exact ht
    obtain ⟨-, -, hframe, hraw, hcont⟩ := postBooks_effect s body now i hid hi hok.2
    exact ⟨(postBooks s body now).2, rfl, hframe, hraw, hcont⟩
  · have hfalse : ∀ b : Bool, ¬ b = true → b = false := by
      intro b hb
      cases b
      · rfl
      · exact absurd rfl hb
    have hnull : body.isNull = false :=
      isNull_false_of_getField body "id" (Json.str i) hid
    have h400 : (postBooks s body now).2 = s := by
      unfold postBooks
      rw [hnull, if_neg (show ¬ (false = true) by simp)]
      rcases not_and_or.mp hok with hb | hb
      · rw [if_pos (Or.inl (hfalse _ hb))]
      · rw [if_pos (Or.inr (hfalse _ hb))]
    refine ⟨s, ?_, fun k _ _ _ => rfl, fun _ => rfl, fun _ => rfl⟩
    rw [h400]

/-- Witness for C9 at a concrete book and store. -/
theorem c9_witness :
    ∃ s', (server (some [("user:progress", Json.num 1)]) [] "/app" dt0
        ⟨"POST", "/api/books",
          Json.obj [("id", Json.str "b1"), ("name", Json.str "Book")]⟩).2 = some s' ∧
      (∀ k, k ≠ "book:" ++ "b1" ++ ":meta" → k ≠ "book:" ++ "b1" ++ ":data" →
        k ≠ "book:" ++ "b1" ++ ":content" →
        s'.get k = Store.get [("user:progress", Json.num 1)] k) ∧
      (truthyO ((Json.obj [("id", Json.str "b1"), ("name", Json.str "Book")]).getField
          "rawData") = false →
        s'.get ("book:" ++ "b1" ++ ":data") =
          Store.get [("user:progress", Json.num 1)] ("book:" ++ "b1" ++ ":data")) ∧
      ((truthyO ((Json.obj [("id", Json.str "b1"), ("name", Json.str "Book")]).getField
          "content") = false ∧
        truthyO ((Json.obj [("id", Json.str "b1"), ("name", Json.str "Book")]).getField
          "chapters") = false) →
        s'.get ("book:" ++ "b1" ++ ":content") =
          Store.get [("user:progress", Json.num 1)] ("book:" ++ "b1" ++ ":content")) :=
  c9_post_frame [("user:progress", Json.num 1)] (Json.obj [("id", Json.str "b1"),
    ("name", Json.str "Book")]) [] "/app" dt0 "b1" (by rfl)

/-- Claim C3, counterexample: a book whose id contains a slash is stored by
POST, but the subsequent GET of its book path misses the single-segment
book route and returns the JSON 404 with none of the posted fields. -/
theorem c3_counterexample :
    (server (server (some []) [] "/app" dt0
        ⟨"POST", "/api/books", Json.obj [("id", Json.str "a/b"), ("name", Json.str "n")]⟩).2
      [] "/app" dt0 ⟨"GET", "/api/books/a/b", Json.obj []⟩).1.status = 404 ∧
    (server (server (some []) [] "/app" dt0
        ⟨"POST", "/api/books", Json.obj [("id", Json.str "a/b"), ("name", Json.str "n")]⟩).2
      [] "/app" dt0 ⟨"GET", "/api/books/a/b", Json.obj []⟩).1.jsonField "name" = none :=
  ⟨rfl, rfl⟩

/-- Claim C3 (amended): for every book record whose string id is nonempty
and passed through verbatim by the URL parser — free of the separators
slash and backslash, of question mark and hash, of characters the path
encoder percent-encodes, and not a single- or double-dot segment — and
whose name is a nonempty string, POST of the record followed by GET of
its book path (no interleaving writes) returns status 200 and the same id,
name, type, size and metadata fields that were posted, plus the
server-assigned savedAt field holding the ISO printout of the request-time
clock, which parses successfully as a timestamp. -/
theorem c3_post_get_roundtrip (s : Store) (fs : FS) (dir : String) (now : DateTime)
    (body getBody : Json) (i nm : String)
    (hid : body.getField "id" = some (.str i))
    (hname : body.getField "name" = some (.str nm))
    (hine : i.data ≠ []) (hnm : nm ≠ "")
    (hsafe : urlSafeSeg i.data)
    (hv : now.valid) :
    ∃ s1, (server (some s) fs dir now ⟨"POST", "/api/books", body⟩).2 = some s1 ∧
      ((server (some s1) fs dir now ⟨"GET", "/api/books/" ++ i, getBody⟩).1.status = 200 ∧
       (server (some s1) fs dir now ⟨"GET", "/api/books/" ++ i, getBody⟩).1.jsonField
         "id" = some (.str i) ∧
       (server (some s1) fs dir now ⟨"GET", "/api/books/" ++ i, getBody⟩).1.jsonField
         "name" = some (.str nm) ∧
       (server (some s1) fs dir now ⟨"GET", "/api/books/" ++ i, getBody⟩).1.jsonField
         "type" = body.getField "type" ∧
       (server (some s1) fs dir now ⟨"GET", "/api/books/" ++ i, getBody⟩).1.jsonField
         "size" = body.getField "size" ∧
       (server (some s1) fs dir now ⟨"GET", "/api/books/" ++ i, getBody⟩).1.jsonField
         "metadata" = body.getField "metadata" ∧
       (server (some s1) fs dir now ⟨"GET", "/api/books/" ++ i, getBody⟩).1.jsonField
         "savedAt" = some (.str (isoTimestamp now)) ∧
       parseIso (isoTimestamp now) = some now) := by
  have hi : i ≠ "" := fun he => hine (by rw [he])
  have hsl : '/' ∉ i.data := fun hm => (hsafe.1 '/' hm).1 rfl
  have hnmt : truthyO (body.getField "name") = true := by
    rw [hname]
    simp [truthyO, truthy, hnm]
  obtain ⟨-, hmeta, -, -, -⟩ := postBooks_effect s body now i hid hi hnmt
  rw [server_api s fs dir now "POST" "/api/books" body (by decide) (by decide)]
  rw [show urlPathname "/api/books" = "/api/books" from rfl, apiRoutes_post_books]
  refine ⟨(postBooks s body now).2, rfl, ?_⟩
  rw [server_api _ fs dir now "GET" ("/api/books/" ++ i) getBody (by decide)
    (jsStartsWith_api i)]
  rw [urlPathname_book i hsafe]
  rw [apiRoutes_get_book _ i getBody now hine hsl]
  rw [show (((getBook (postBooks s body now).2 i, (postBooks s body now).2).1,
    some (getBook (postBooks s body now).2 i, (postBooks s body now).2).2).1) =
    getBook (postBooks s body now).2 i from rfl]
  rw [getBook_found _ i _ hmeta]
  rw [hname]
  refine ⟨rfl, ?_, ?_, ?_, ?_, ?_, ?_, parseIso_iso now hv⟩
  · rw [jsonField_sendJson, getField_setField_ne _ _ _ _ (by decide),
      Store.get_optField_some]
  · rw [jsonField_sendJson, getField_setField_ne _ _ _ _ (by decide),
      Store.get_optField_ne _ _ _ _ (by decide), Store.get_optField_some]
  · cases ht : body.getField "type" with
    | some v =>
      rw [jsonField_sendJson, getField_setField_ne _ _ _ _ (by decide),
        Store.get_optField_ne _ _ _ _ (by decide),
        Store.get_optField_ne _ _ _ _ (by decide), Store.get_optField_some]
    | none =>
      rw [jsonField_sendJson, getField_setField_ne _ _ _ _ (by decide),
        Store.get_optField_ne _ _ _ _ (by decide),
        Store.get_optField_ne _ _ _ _ (by decide), Store.get_optField_none,
        Store.get_optField_ne _ _ _ _ (by decide),
        Store.get_optField_ne _ _ _ _ (by decide)]
      rfl
  · cases hz : body.getField "size" with
    | some v =>
      rw [jsonField_sendJson, getField_setField_ne _ _ _ _ (by decide),
        Store.get_optField_ne _ _ _ _ (by decide),
        Store.get_optField_ne _ _ _ _ (by decide),
        Store.get_optField_ne _ _ _ _ (by decide), Store.get_optField_some]
    | none =>
      rw [jsonField_sendJson, getField_setField_ne _ _ _ _ (by decide),
        Store.get_optField_ne _ _ _ _ (by decide),
        Store.get_optField_ne _ _ _ _ (by decide),
        Store.get_optField_ne _ _ _ _ (by decide), Store.get_optField_none,
        Store.get_optField_ne _ _ _ _ (by decide)]
      rfl
  · cases hmd : body.getField "metadata" with
    | some v =>
      rw [jsonField_sendJson, getField_setField_ne _ _ _ _ (by decide),
        Store.get_optField_ne _ _ _ _ (by decide),
        Store.get_optField_ne _ _ _ _ (by decide),
        Store.get_optField_ne _ _ _ _ (by decide),
        Store.get_optField_ne _ _ _ _ (by decide), Store.get_optField_some]
    | none =>
      rw [jsonField_sendJson, getField_setField_ne _ _ _ _ (by decide),
        Store.get_optField_ne _ _ _ _ (by decide),
        Store.get_optField_ne _ _ _ _ (by decide),
        Store.get_optField_ne _ _ _ _ (by decide),
        Store.get_optField_ne _ _ _ _ (by decide), Store.get_optField_none]
      rfl
  · rw [jsonField_sendJson, getField_setField_ne _ _ _ _ (by decide),
      Store.get_optField_ne _ _ _ _ (by decide),
      Store.get_optField_ne _ _ _ _ (by decide),
      Store.get_optField_ne _ _ _ _ (by decide),
      Store.get_optField_ne _ _ _ _ (by decide),
      Store.get_optField_ne _ _ _ _ (by decide)]
    rfl

/-- Witness for the amended C3 at a concrete book record. -/
theorem c3_witness :
    ∃ s1, (server (some []) [] "/app" dt0 ⟨"POST", "/api/books",
        Json.obj [("id", Json.str "b1"), ("name", Json.str "Book"),
          ("size", Json.num 9)]⟩).2 = some s1 ∧
      ((server (some s1) [] "/app" dt0
          ⟨"GET", "/api/books/" ++ "b1", Json.obj []⟩).1.status = 200 ∧
       (server (some s1) [] "/app" dt0
          ⟨"GET", "/api/books/" ++ "b1", Json.obj []⟩).1.jsonField "id" =
         some (.str "b1") ∧
       (server (some s1) [] "/app" dt0
          ⟨"GET", "/api/books/" ++ "b1", Json.obj []⟩).1.jsonField "name" =
         some (.str "Book") ∧
       (server (some s1) [] "/app" dt0
          ⟨"GET", "/api/books/" ++ "b1", Json.obj []⟩).1.jsonField "type" =
         (Json.obj [("id", Json.str "b1"), ("name", Json.str "Book"),
           ("size", Json.num 9)]).getField "type" ∧
       (server (some s1) [] "/app" dt0
          ⟨"GET", "/api/books/" ++ "b1", Json.obj []⟩).1.jsonField "size" =
         (Json.obj [("id", Json.str "b1"), ("name", Json.str "Book"),
           ("size", Json.num 9)]).getField "size" ∧
       (server (some s1) [] "/app" dt0
          ⟨"GET", "/api/books/" ++ "b1", Json.obj []⟩).1.jsonField "metadata" =
         (Json.obj [("id", Json.str "b1"), ("name", Json.str "Book"),
           ("size", Json.num 9)]).getField "metadata" ∧
       (server (some s1) [] "/app" dt0
          ⟨"GET", "/api/books/" ++ "b1", Json.obj []⟩).1.jsonField "savedAt" =
         some (.str (isoTimestamp dt0)) ∧
       parseIso (isoTimestamp dt0) = some dt0) :=
  c3_post_get_roundtrip [] [] "/app" dt0
    (Json.obj [("id", Json.str "b1"), ("name", Json.str "Book"), ("size", Json.num 9)])
    (Json.obj []) "b1" "Book" (by rfl) (by rfl) (by decide) (by decide) (by decide)
    (by unfold DateTime.valid; decide)
